import Mathlib

/-!
Verification of the SimpleDeliveryTracker delivery-coordination service.

This file gives a shallow embedding, in Lean 4, of the server-side logic of
the repository:

* `src/app/api/login/route.ts` — access-code validation with a per-IP
  rate limiter (`getValidAccessCodes`, `isRateLimited`, `recordFailedAttempt`,
  `clearFailedAttempts`, `POST`, modelled here as `loginPost`);
* `src/app/api/recipients/route.ts` — bearer auth (`verifyAuth`) and the
  GET/PATCH handlers (`getHandler`, `patchHandler`);
* `src/lib/googleSheets.ts` — coordinate extraction from map links
  (`parseCoordinates`, `isShortLink`, `parseCoordinatesAsync`), row-to-record
  conversion (`getRecipients`) and status write-back (`updateDeliveryStatus`).

Machine-independent conventions: JavaScript numbers are modelled as `Rat`
(exact decimal values; the claims under study concern which substring of a
link is extracted, not binary-float rounding); the spreadsheet is a
`List (List String)` of rows; the environment is a structure of optional
strings; time is a `Nat` of milliseconds; the HTTP `fetch` performed by
`resolveShortLink` is an oracle parameter `resolve : String → Option String`
(`none` models a failed resolution).  `Map` objects are association lists.
-/

namespace DeliveryTracker

/-! ## Character and string utilities -/

/-- Greedily take the leading decimal digits of a character list
(the `\d*` / `\d+` regex fragments). -/
def takeDigs : List Char → List Char × List Char
  | [] => ([], [])
  | c :: cs =>
    if c.isDigit then
      let p := takeDigs cs
      (c :: p.1, p.2)
    else ([], c :: cs)

/-- Numeric value of a digit string, as read left to right. -/
def natOfDigs (l : List Char) : Nat :=
  l.foldl (fun a c => 10 * a + (c.toNat - 48)) 0

/-- `String.prototype.trim`: drop whitespace at both ends. -/
def trimChars (l : List Char) : List Char :=
  ((l.dropWhile Char.isWhitespace).reverse.dropWhile Char.isWhitespace).reverse

/-- `String.prototype.split(',')`: split at every comma, keeping empty parts. -/
def splitComma : List Char → List (List Char)
  | [] => [[]]
  | c :: cs =>
    let r := splitComma cs
    if c = ',' then [] :: r
    else
      match r with
      | h :: t => (c :: h) :: t
      | [] => [[c]]

/-- If `key` is a prefix of the list, strip it; otherwise `none`. -/
def stripKey : List Char → List Char → Option (List Char)
  | [], l => some l
  | _ :: _, [] => none
  | k :: ks, c :: cs => if c = k then stripKey ks cs else none

/-- `String.prototype.replace(pat, '')` with a plain-string pattern:
remove the first occurrence of `pat`, if any. -/
def stripFirst (pat : List Char) : List Char → List Char
  | [] => []
  | c :: cs =>
    match stripKey pat (c :: cs) with
    | some rest => rest
    | none => c :: stripFirst pat cs

/-! ## Login route: environment and access codes
(`src/app/api/login/route.ts`) -/

/-- The process environment variables the handlers read. -/
structure Env where
  ACCESS_CODES : Option String
  ADMIN_ACCESS_CODE : Option String

/-- `getValidAccessCodes`: the comma-separated `ACCESS_CODES` entries,
trimmed and with empty entries dropped, plus the legacy `ADMIN_ACCESS_CODE`
when set and not already present.  A missing or empty variable is falsy. -/
def getValidAccessCodes (env : Env) : List String :=
  let base : List String :=
    match env.ACCESS_CODES with
    | some s =>
      if s = "" then []
      else ((splitComma s.data).map (fun l => String.mk (trimChars l))).filter
        (fun c => c ≠ "")
    | none => []
  match env.ADMIN_ACCESS_CODE with
  | some legacy =>
    if legacy ≠ "" ∧ legacy ∉ base then base ++ [legacy] else base
  | none => base

/-! ## Login route: rate limiting -/

/-- `failedAttempts`: per-IP record of `(count, lastAttempt)`, as an
association list standing in for the `Map`. -/
abbrev RLState := List (String × Nat × Nat)

def MAX_ATTEMPTS : Nat := 5

def LOCKOUT_DURATION_MS : Nat := 15 * 60 * 1000

/-- `failedAttempts.get(ip)`. -/
def rlLookup (s : RLState) (ip : String) : Option (Nat × Nat) :=
  match s with
  | [] => none
  | (k, v) :: rest => if k = ip then some v else rlLookup rest ip

/-- `failedAttempts.delete(ip)` (also `clearFailedAttempts`). -/
def rlErase (s : RLState) (ip : String) : RLState :=
  match s with
  | [] => []
  | (k, v) :: rest => if k = ip then rlErase rest ip else (k, v) :: rlErase rest ip

/-- `recordFailedAttempt(ip)` at time `now`: bump the count and refresh the
timestamp, or create a fresh record with count 1. -/
def recordFailedAttempt (s : RLState) (ip : String) (now : Nat) : RLState :=
  match s with
  | [] => [(ip, 1, now)]
  | (k, cnt, last) :: rest =>
    if k = ip then (k, cnt + 1, now) :: rest
    else (k, cnt, last) :: recordFailedAttempt rest ip now

/-- `isRateLimited(ip)` at time `now`.  Returns the verdict together with the
(possibly mutated) map: a record older than the lockout window is deleted on
the way.  The derived `retryAfterSeconds` display value is not modelled. -/
def isRateLimited (now : Nat) (ip : String) (s : RLState) : Bool × RLState :=
  match rlLookup s ip with
  | none => (false, s)
  | some (cnt, last) =>
    if now - last > LOCKOUT_DURATION_MS then (false, rlErase s ip)
    else if cnt ≥ MAX_ATTEMPTS then (true, s)
    else (false, s)

/-! ## HTTP responses and the login POST handler -/

/-- The parts of a `NextResponse.json` reply the claims mention: HTTP status,
the `success` flag, and the `error` message. -/
structure Resp where
  status : Nat
  success : Bool
  error : Option String
  deriving DecidableEq, Repr

/-- The login `POST` handler.  `ip` is the client address already extracted
from `x-forwarded-for`; `code` is `body.code` (`none` covers a missing or
non-string field, `some ""` the empty string — both falsy).  The JSON-parse
exception path (a 500) is outside the claims and not modelled. -/
def loginPost (env : Env) (now : Nat) (ip : String) (code : Option String)
    (s : RLState) : Resp × RLState :=
  let check := isRateLimited now ip s
  if check.1 then
    ({ status := 429, success := false,
       error := some "Too many failed attempts. Try again later." }, check.2)
  else
    let s1 := check.2
    match code with
    | none =>
      ({ status := 400, success := false, error := some "Access code is required" }, s1)
    | some c =>
      if c = "" then
        ({ status := 400, success := false, error := some "Access code is required" }, s1)
      else
        let codes := getValidAccessCodes env
        if codes = [] then
          ({ status := 500, success := false,
             error := some "Server configuration error" }, s1)
        else if c ∈ codes then
          ({ status := 200, success := true, error := none }, rlErase s1 ip)
        else
          ({ status := 401, success := false, error := some "Invalid access code" },
           recordFailedAttempt s1 ip now)

/-! ## Coordinate extraction (`src/lib/googleSheets.ts`, `parseCoordinates`)

The source tries four regexes in order and returns the first match:
`@(-?\d+\.?\d*),(-?\d+\.?\d*)`, then `[?&]q=…`, then `[?&]ll=…` with the
same number shape, then `\/(-?\d+\.\d+),(-?\d+\.\d+)`.  For these patterns
the backtracking regex search coincides with a deterministic greedy scan:
a number capture is sign, maximal digit run, optional dot, maximal digit
run, and when the following literal (`,`) fails to match, no shorter
capture can succeed either, because every shorter capture ends in front of
a digit or a dot.  The scan below implements exactly that, finding the
leftmost occurrence of the pattern's first literal character. -/

/-- Match the number fragment at the head of the list: `-?\d+\.?\d*` when
`dotted = false`, `-?\d+\.\d+` when `dotted = true`.  Returns the captured
characters and the remainder. -/
def matchNumCore (dotted : Bool) (m : List Char) : Option (List Char × List Char) :=
  let p1 := takeDigs m
  if p1.1 = [] then none
  else
    match p1.2 with
    | c :: r2 =>
      if c = '.' then
        let p2 := takeDigs r2
        if dotted && p2.1.isEmpty then none
        else some (p1.1 ++ '.' :: p2.1, p2.2)
      else if dotted then none else some (p1.1, p1.2)
    | [] => if dotted then none else some (p1.1, p1.2)

def matchNum (dotted : Bool) (l : List Char) : Option (List Char × List Char) :=
  match l with
  | [] => none
  | c :: rest =>
    if c = '-' then
      match matchNumCore dotted rest with
      | some pr => some ('-' :: pr.1, pr.2)
      | none => none
    else matchNumCore dotted (c :: rest)

/-- Match `NUM,NUM` at the head of the list and return the two captures. -/
def matchPair (dotted : Bool) (l : List Char) : Option (List Char × List Char) :=
  match matchNum dotted l with
  | none => none
  | some (a, r) =>
    match r with
    | c :: r2 =>
      if c = ',' then
        match matchNum dotted r2 with
        | none => none
        | some (b, _) => some (a, b)
      else none
    | [] => none

/-- Leftmost occurrence of `@NUM,NUM` (the place-URL format). -/
def scanAt : List Char → Option (List Char × List Char)
  | [] => none
  | c :: cs =>
    if c = '@' then
      match matchPair false cs with
      | some p => some p
      | none => scanAt cs
    else scanAt cs

/-- Leftmost occurrence of `[?&]key…NUM,NUM`, for `key` = `q=` or `ll=`. -/
def scanQuery (key : List Char) : List Char → Option (List Char × List Char)
  | [] => none
  | c :: cs =>
    if c = '?' ∨ c = '&' then
      match stripKey key cs with
      | some r =>
        match matchPair false r with
        | some p => some p
        | none => scanQuery key cs
      | none => scanQuery key cs
    else scanQuery key cs

/-- Leftmost occurrence of `/NUM,NUM` with dotted numbers (plain
coordinates in the path). -/
def scanPlain : List Char → Option (List Char × List Char)
  | [] => none
  | c :: cs =>
    if c = '/' then
      match matchPair true cs with
      | some p => some p
      | none => scanPlain cs
    else scanPlain cs

/-- `parseFloat` on a capture of shape `-?\d+\.?\d*`, without the sign. -/
def ratOfPos (l : List Char) : Rat :=
  let p1 := takeDigs l
  match p1.2 with
  | c :: r2 =>
    if c = '.' then
      (natOfDigs p1.1 : Rat) +
        (natOfDigs (takeDigs r2).1 : Rat) / ((10 : Rat) ^ (takeDigs r2).1.length)
    else (natOfDigs p1.1 : Rat)
  | [] => (natOfDigs p1.1 : Rat)

/-- `parseFloat` on a capture of shape `-?\d+\.?\d*`. -/
def ratOfTok (l : List Char) : Rat :=
  match l with
  | [] => ratOfPos []
  | c :: rest => if c = '-' then - ratOfPos rest else ratOfPos (c :: rest)

/-- `parseCoordinates` on the character list of the link: empty input is
falsy and yields `null`; otherwise the four patterns are tried in the fixed
order `@`, `q=`, `ll=`, plain, and the first match's captures are returned
through `parseFloat`. -/
def parseCoordsList (l : List Char) : Option (Rat × Rat) :=
  if l = [] then none
  else
    match scanAt l with
    | some p => some (ratOfTok p.1, ratOfTok p.2)
    | none =>
      match scanQuery ['q', '='] l with
      | some p => some (ratOfTok p.1, ratOfTok p.2)
      | none =>
        match scanQuery ['l', 'l', '='] l with
        | some p => some (ratOfTok p.1, ratOfTok p.2)
        | none =>
          match scanPlain l with
          | some p => some (ratOfTok p.1, ratOfTok p.2)
          | none => none

/-- `parseCoordinates(mapLink)`. -/
def parseCoordinates (mapLink : String) : Option (Rat × Rat) :=
  parseCoordsList mapLink.data

/-- ASCII lower-casing, for the case-insensitive short-link test. -/
def lowerChar (c : Char) : Char :=
  if 'A' ≤ c ∧ c ≤ 'Z' then Char.ofNat (c.toNat + 32) else c

/-- Substring occurrence test. -/
def containsSeq (pat : List Char) : List Char → Bool
  | [] => pat.isEmpty
  | c :: cs => pat.isPrefixOf (c :: cs) || containsSeq pat cs

/-- `isShortLink(url)`: the case-insensitive test
`/goo\.gl|maps\.app\.goo\.gl/i`. -/
def isShortLink (url : String) : Bool :=
  let low := url.data.map lowerChar
  containsSeq "goo.gl".data low || containsSeq "maps.app.goo.gl".data low

/-- `parseCoordinatesAsync(mapLink)`: the `fetch`-based redirect follower
`resolveShortLink` is the oracle `resolve` (`none` = resolution failed).
Short links are resolved first and the resolved URL goes through
`parseCoordinates`; a failed resolution yields `null`; other links are
parsed directly. -/
def parseCoordinatesAsync (resolve : String → Option String)
    (mapLink : String) : Option (Rat × Rat) :=
  if mapLink = "" then none
  else if isShortLink mapLink then
    match resolve mapLink with
    | some u => parseCoordinates u
    | none => none
  else parseCoordinates mapLink

/-! ## Recipients route: bearer auth and handlers
(`src/app/api/recipients/route.ts`) -/

/-- `verifyAuth`: false when the `Authorization` header or the
`ADMIN_ACCESS_CODE` variable is missing or empty; otherwise the header with
its first occurrence of the substring `"Bearer "` removed must equal the
admin code.  Note the source compares against `ADMIN_ACCESS_CODE` only, not
against the full `getValidAccessCodes` allow-list. -/
def verifyAuth (env : Env) (authHeader : Option String) : Bool :=
  match authHeader, env.ADMIN_ACCESS_CODE with
  | some h, some a =>
    if h = "" ∨ a = "" then false
    else String.mk (stripFirst "Bearer ".data h.data) == a
  | _, _ => false

/-- The spreadsheet: one row per line, `row[0]` = column A (id),
`row[9]` = column J (status). -/
abbrev Sheet := List (List String)

/-- Write cell `j` of a row, padding with empty cells when the row is
shorter (the Sheets API addresses the cell by absolute column). -/
def setCell (row : List String) (j : Nat) (v : String) : List String :=
  match j, row with
  | 0, [] => [v]
  | 0, _ :: rest => v :: rest
  | Nat.succ k, [] => "" :: setCell [] k v
  | Nat.succ k, c :: rest => c :: setCell rest k v

/-- Replace row `i` (0-based over the whole sheet) by `f` of itself. -/
def setRow (sheet : Sheet) (i : Nat) (f : List String → List String) : Sheet :=
  match sheet, i with
  | [], _ => []
  | r :: rest, 0 => f r :: rest
  | r :: rest, Nat.succ k => r :: setRow rest k f

/-- The row-search loop of `updateDeliveryStatus`: scan the rows after the
header (passed with their 0-based sheet index starting at `i`) for a row
whose column A, read as `row[0] || ''`, equals `id`. -/
def findIdAux (id : String) : Nat → List (List String) → Option Nat
  | _, [] => none
  | i, row :: rest =>
    if row.getD 0 "" = id then some i else findIdAux id (i + 1) rest

/-- `updateDeliveryStatus(id, status)`: returns `false` (leaving the sheet
alone) when the sheet has fewer than two rows or no data row's column A
matches `id`; otherwise writes `status` into column J of the first matching
row and returns `true`. -/
def updateDeliveryStatus (id status : String) (sheet : Sheet) : Bool × Sheet :=
  if sheet.length < 2 then (false, sheet)
  else
    match findIdAux id 1 (sheet.drop 1) with
    | none => (false, sheet)
    | some i => (true, setRow sheet i (fun row => setCell row 9 status))

/-- JavaScript truthiness of an optional string field. -/
def truthy : Option String → Bool
  | none => false
  | some s => s ≠ ""

/-- The `validStatuses` list of the PATCH handler. -/
def validStatuses : List String := ["Pending", "On the way", "Delivered"]

/-- The `GET /api/recipients` handler, reduced to its auth gate: 401 when
`verifyAuth` fails, otherwise the recipient list is served with a 200. -/
def getHandler (env : Env) (authHeader : Option String) : Resp :=
  if verifyAuth env authHeader then
    { status := 200, success := true, error := none }
  else
    { status := 401, success := false, error := some "Unauthorized" }

/-- The `PATCH /api/recipients` handler: auth gate, presence check of
`rowIndex`/`status`, membership of `status` in `validStatuses`, then
`updateDeliveryStatus`; returns the response together with the resulting
sheet. -/
def patchHandler (env : Env) (authHeader : Option String)
    (rowIndex status : Option String) (sheet : Sheet) : Resp × Sheet :=
  if verifyAuth env authHeader then
    if truthy rowIndex && truthy status then
      let st := status.getD ""
      if st ∈ validStatuses then
        let r := updateDeliveryStatus (rowIndex.getD "") st sheet
        if r.1 then
          ({ status := 200, success := true, error := none }, r.2)
        else
          ({ status := 500, success := false,
             error := some "Failed to update status" }, r.2)
      else
        ({ status := 400, success := false,
           error := some "Invalid status. Must be: Pending, On the way, or Delivered" },
         sheet)
    else
      ({ status := 400, success := false, error := some "Missing rowIndex or status" },
       sheet)
  else
    ({ status := 401, success := false, error := some "Unauthorized" }, sheet)

/-! ## Reading recipients (`src/lib/googleSheets.ts`, `getRecipients`) -/

/-- Exponent part of a JS float literal: optional sign then digits; an `e`
not followed by digits contributes nothing. -/
def expOf (l : List Char) : Int :=
  let p : Int × List Char :=
    match l with
    | '-' :: r => (-1, r)
    | '+' :: r => (1, r)
    | r => (1, r)
  let d := (takeDigs p.2).1
  if d = [] then 0 else p.1 * (natOfDigs d : Int)

/-- JS `parseFloat` on an arbitrary string, restricted to finite values:
skip leading whitespace, optional sign, then the longest prefix of shape
`\d+(\.\d*)?` or `\.\d+`, with an optional `e`/`E` exponent.  `none` models
`NaN`; the `Infinity` literal is not modelled (it never denotes a
coordinate). -/
def jsParseFloat (s : String) : Option Rat :=
  let l := s.data.dropWhile Char.isWhitespace
  let sgel : Bool × List Char :=
    match l with
    | '-' :: r => (true, r)
    | '+' :: r => (false, r)
    | r => (false, r)
  let p1 := takeDigs sgel.2
  let fr : Option (List Char) × List Char :=
    match p1.2 with
    | '.' :: rr => let p := takeDigs rr; (some p.1, p.2)
    | _ => (none, p1.2)
  if p1.1 = [] ∧ fr.1.getD [] = [] then none
  else
    let m : Rat := (natOfDigs p1.1 : Rat) +
      (match fr.1 with
       | some f => (natOfDigs f : Rat) / ((10 : Rat) ^ f.length)
       | none => 0)
    let e : Int :=
      match fr.2 with
      | 'e' :: rest => expOf rest
      | 'E' :: rest => expOf rest
      | _ => 0
    let v := m * (10 : Rat) ^ e
    some (if sgel.1 then -v else v)

/-- JS `parseInt(s, 10)`: skip whitespace, optional sign, leading digits;
`none` models `NaN`. -/
def jsParseInt (s : String) : Option Int :=
  let l := s.data.dropWhile Char.isWhitespace
  let p : Bool × List Char :=
    match l with
    | '-' :: r => (true, r)
    | '+' :: r => (false, r)
    | r => (false, r)
  let d := (takeDigs p.2).1
  if d = [] then none
  else some (if p.1 then -(natOfDigs d : Int) else (natOfDigs d : Int))

/-- The `Recipient` record.  `status` is kept as the raw runtime string:
the TypeScript interface asserts the three-value union
`Pending | On the way | Delivered`, but the source populates the field with
an unchecked cast. -/
structure Recipient where
  id : String
  googleMapLink : String
  coordinates : Option (Rat × Rat)
  recipientType : String
  parcels : Int
  faculty : String
  phone : String
  secondaryPhone : String
  status : String
  deriving DecidableEq, Repr

/-- One loop iteration of `getRecipients` on a data row (cells read as
`row[k] || ''`): sheet lat/lng columns C/D are used when both are present,
not the `error` marker, and parse to numbers; otherwise the link is parsed,
via the async short-link path exactly when the link is short and both cells
are empty.  The fire-and-forget coordinate write-back does not affect the
returned records and is not modelled. -/
def rowToRecipient (resolve : String → Option String) (row : List String) :
    Recipient :=
  let link := row.getD 1 ""
  let latS := row.getD 2 ""
  let lngS := row.getD 3 ""
  let fromSheet : Option (Rat × Rat) :=
    if latS ≠ "" ∧ lngS ≠ "" ∧ latS ≠ "error" ∧ lngS ≠ "error" then
      match jsParseFloat latS, jsParseFloat lngS with
      | some a, some b => some (a, b)
      | _, _ => none
    else none
  let coords : Option (Rat × Rat) :=
    match fromSheet with
    | some c => some c
    | none =>
      if link ≠ "" then
        if isShortLink link ∧ latS = "" ∧ lngS = "" then
          parseCoordinatesAsync resolve link
        else parseCoordinates link
      else none
  { id := row.getD 0 ""
    googleMapLink := link
    coordinates := coords
    recipientType := row.getD 4 ""
    parcels := (jsParseInt (row.getD 5 "")).getD 0
    faculty := row.getD 6 ""
    phone := row.getD 7 ""
    secondaryPhone := row.getD 8 ""
    status := if row.getD 9 "" = "" then "Pending" else row.getD 9 "" }

/-- The loop of `getRecipients` over the data rows: a row whose column A is
empty or missing is skipped. -/
def buildRecipients (resolve : String → Option String) :
    List (List String) → List Recipient
  | [] => []
  | row :: rest =>
    if row.getD 0 "" = "" then buildRecipients resolve rest
    else rowToRecipient resolve row :: buildRecipients resolve rest

/-- `getRecipients`: empty sheet yields no recipients; otherwise the header
row is skipped and the data rows are converted in order. -/
def getRecipients (resolve : String → Option String) (rows : Sheet) :
    List Recipient :=
  match rows with
  | [] => []
  | _ :: body => buildRecipients resolve body

/-! ## Spec-side description of the four link formats

To state C5 without merely restating `parseCoordsList`, a coordinate
number as it appears in a link is described structurally: an optional
minus sign, a non-empty integer digit string and an optional fractional
digit string, with its decimal value defined independently of the
parser. -/

/-- A number token `-?\d+(\.\d*)?` as structure: sign, integer digits,
optional fractional digits (present with `f = []` renders a trailing
dot). -/
structure NumTok where
  neg : Bool
  ipart : List Char
  fpart : Option (List Char)

/-- The dot-and-fraction characters of the token. -/
def NumTok.tail (t : NumTok) : List Char :=
  match t.fpart with
  | some f => '.' :: f
  | none => []

/-- The characters the token contributes to the link. -/
def NumTok.chars (t : NumTok) : List Char :=
  (if t.neg then ['-'] else []) ++ t.ipart ++ t.tail

/-- The decimal value the token denotes. -/
def NumTok.val (t : NumTok) : Rat :=
  let m : Rat := (natOfDigs t.ipart : Rat) +
    (match t.fpart with
     | some f => (natOfDigs f : Rat) / ((10 : Rat) ^ f.length)
     | none => 0)
  if t.neg then -m else m

/-- Well-formedness: at least one integer digit, digits everywhere. -/
def NumTok.wf (t : NumTok) : Prop :=
  t.ipart ≠ [] ∧ t.ipart.all Char.isDigit = true ∧
    (t.fpart.getD []).all Char.isDigit = true

/-- The token has a dot with at least one digit after it
(shape `-?\d+\.\d+`, required by the plain path format). -/
def NumTok.dotted (t : NumTok) : Prop :=
  t.fpart.getD [] ≠ []

instance (t : NumTok) : Decidable t.wf := by
  unfold NumTok.wf
  infer_instance

instance (t : NumTok) : Decidable t.dotted := by
  unfold NumTok.dotted
  infer_instance

/-- The text after a token may not extend it: its first character is not a
digit, and not a dot when the token has no fractional part yet. -/
def tokStop (t : NumTok) : List Char → Prop
  | [] => True
  | c :: _ => c.isDigit = false ∧ (t.fpart.isSome ∨ c ≠ '.')

instance (t : NumTok) (l : List Char) : Decidable (tokStop t l) := by
  cases l with
  | nil => exact inferInstanceAs (Decidable True)
  | cons c cs => exact inferInstanceAs (Decidable (_ ∧ _))

/-- No `/` inside this prefix is followed (inside the prefix) by a
character that could start a number, and the prefix does not end in `/`:
then the plain-coordinate scan finds nothing while crossing it. -/
def plainPre : List Char → Bool
  | [] => true
  | c :: cs =>
    if c = '/' then
      match cs with
      | [] => false
      | d :: _ => !(d.isDigit || d == '-') && plainPre cs
    else plainPre cs

/-- No query marker among these characters. -/
def noMark (l : List Char) : Prop := ∀ c ∈ l, c ≠ '?' ∧ c ≠ '&'

instance (l : List Char) : Decidable (noMark l) :=
  inferInstanceAs (Decidable (∀ c ∈ l, _ ∧ _))

/-! ## Theorems: C1 -/

/-- **C1.** With the rate limiter not blocking the address, a non-empty
submitted code, and a non-empty configured allow-list, the login POST handler
succeeds if and only if the code is a member of
`getValidAccessCodes` (the codes parsed from `ACCESS_CODES` plus the legacy
`ADMIN_ACCESS_CODE`); any code not in the allow-list yields a 401 failure
response, and any member yields a 200 success response. -/
theorem c1_login_iff_allowlist (env : Env) (now : Nat) (ip : String) (c : String)
    (s : RLState)
    (hrl : (isRateLimited now ip s).1 = false)
    (hc : c ≠ "")
    (hcfg : getValidAccessCodes env ≠ []) :
    ((loginPost env now ip (some c) s).1.success = true ↔
      c ∈ getValidAccessCodes env) ∧
    (c ∉ getValidAccessCodes env →
      (loginPost env now ip (some c) s).1 =
        { status := 401, success := false, error := some "Invalid access code" }) ∧
    (c ∈ getValidAccessCodes env →
      (loginPost env now ip (some c) s).1 =
        { status := 200, success := true, error := none }) := by
  unfold loginPost
  by_cases hmem : c ∈ getValidAccessCodes env <;>
    simp [hrl, hc, hcfg, hmem]

/-- Witness for C1 at a concrete configuration: `ACCESS_CODES = "alpha, beta"`,
legacy code `"gamma"`; the member `"beta"` succeeds and the stranger `"delta"`
is rejected with 401. -/
theorem c1_login_iff_allowlist_witness :
    ((loginPost ⟨some "alpha, beta", some "gamma"⟩ 0 "1.2.3.4" (some "beta") []).1.success
        = true ↔ "beta" ∈ getValidAccessCodes ⟨some "alpha, beta", some "gamma"⟩) ∧
    ((loginPost ⟨some "alpha, beta", some "gamma"⟩ 0 "1.2.3.4" (some "delta") []).1 =
      { status := 401, success := false, error := some "Invalid access code" }) := by
  refine ⟨(c1_login_iff_allowlist ⟨some "alpha, beta", some "gamma"⟩ 0 "1.2.3.4" "beta" []
    (by decide) (by decide) (by decide)).1, ?_⟩
  exact (c1_login_iff_allowlist ⟨some "alpha, beta", some "gamma"⟩ 0 "1.2.3.4" "delta" []
    (by decide) (by decide) (by decide)).2.1 (by decide)

/-! ## Theorems: C2 -/

/-- Erasing an entry really removes it from the map. -/
theorem rlLookup_rlErase (s : RLState) (ip : String) :
    rlLookup (rlErase s ip) ip = none := by
  induction s with
  | nil => rfl
  | cons kv rest ih =>
    obtain ⟨k, v⟩ := kv
    by_cases hk : k = ip <;> simp [rlErase, hk, rlLookup, ih]

/-- Recording a failed attempt bumps the per-address count and stamps `now`. -/
theorem rlLookup_recordFailedAttempt (s : RLState) (ip : String) (now : Nat) :
    rlLookup (recordFailedAttempt s ip now) ip =
      some ((match rlLookup s ip with
             | none => 1
             | some (cnt, _) => cnt + 1), now) := by
  induction s with
  | nil => simp [recordFailedAttempt, rlLookup]
  | cons kv rest ih =>
    obtain ⟨k, cnt, last⟩ := kv
    by_cases hk : k = ip <;> simp [recordFailedAttempt, hk, rlLookup, ih]

/-- **C2.** The five-strike lockout of the login handler, in five parts:
(i) a failed attempt from an address with no record creates one with count 1;
(ii) a failed attempt within the window while the count is below the
threshold bumps the count and refreshes the timestamp (so five consecutive
failures starting from no record reach count 5 = `MAX_ATTEMPTS`);
(iii) once the count has reached `MAX_ATTEMPTS`, any attempt within the
lockout window — whatever the submitted code, which is never compared —
is answered 429 and leaves the map unchanged;
(iv) once the lockout window (15 minutes) has elapsed since the last failed
attempt, the limiter deletes the address record, so the address is no longer
limited; (v) a successful login erases the address record. -/
theorem c2_rate_limit_lockout :
    (∀ (env : Env) (now : Nat) (ip c : String) (s : RLState),
      rlLookup s ip = none → c ≠ "" → getValidAccessCodes env ≠ [] →
      c ∉ getValidAccessCodes env →
      rlLookup (loginPost env now ip (some c) s).2 ip = some (1, now)) ∧
    (∀ (env : Env) (now : Nat) (ip c : String) (s : RLState) (cnt last : Nat),
      rlLookup s ip = some (cnt, last) → cnt < MAX_ATTEMPTS →
      now - last ≤ LOCKOUT_DURATION_MS →
      c ≠ "" → getValidAccessCodes env ≠ [] → c ∉ getValidAccessCodes env →
      rlLookup (loginPost env now ip (some c) s).2 ip = some (cnt + 1, now)) ∧
    (∀ (env : Env) (now : Nat) (ip : String) (code : Option String)
        (s : RLState) (cnt last : Nat),
      rlLookup s ip = some (cnt, last) → MAX_ATTEMPTS ≤ cnt →
      now - last ≤ LOCKOUT_DURATION_MS →
      loginPost env now ip code s =
        ({ status := 429, success := false,
           error := some "Too many failed attempts. Try again later." }, s)) ∧
    (∀ (now : Nat) (ip : String) (s : RLState) (cnt last : Nat),
      rlLookup s ip = some (cnt, last) → LOCKOUT_DURATION_MS < now - last →
      isRateLimited now ip s = (false, rlErase s ip) ∧
      rlLookup (rlErase s ip) ip = none) ∧
    (∀ (env : Env) (now : Nat) (ip c : String) (s : RLState),
      (isRateLimited now ip s).1 = false → c ∈ getValidAccessCodes env → c ≠ "" →
      rlLookup (loginPost env now ip (some c) s).2 ip = none) := by
  refine ⟨?_, ?_, ?_, ?_, ?_⟩
  · intro env now ip c s hnone hc hcfg hmem
    have hrl : isRateLimited now ip s = (false, s) := by
      simp [isRateLimited, hnone]
    simp [loginPost, hrl, hc, hcfg, hmem, rlLookup_recordFailedAttempt, hnone]
  · intro env now ip c s cnt last hrec hcnt hwin hc hcfg hmem
    have hrl : isRateLimited now ip s = (false, s) := by
      simp [isRateLimited, hrec, Nat.not_lt.mpr hwin, Nat.not_le.mpr hcnt]
    simp [loginPost, hrl, hc, hcfg, hmem, rlLookup_recordFailedAttempt, hrec]
  · intro env now ip code s cnt last hrec hcnt hwin
    have hrl : isRateLimited now ip s = (true, s) := by
      simp [isRateLimited, hrec, Nat.not_lt.mpr hwin, hcnt]
    simp [loginPost, hrl]
  · intro now ip s cnt last hrec hexp
    refine ⟨?_, rlLookup_rlErase s ip⟩
    simp [isRateLimited, hrec, hexp]
  · intro env now ip c s hrl hmem hc
    have hcfg : getValidAccessCodes env ≠ [] := by
      intro h
      rw [h] at hmem
      exact (List.not_mem_nil c) hmem
    obtain ⟨b, s1, hpair⟩ : ∃ b s1, isRateLimited now ip s = (b, s1) :=
      ⟨_, _, rfl⟩
    have hb : b = false := by rw [hpair] at hrl; exact hrl
    subst hb
    simp [loginPost, hpair, hc, hcfg, hmem, rlLookup_rlErase]

/-- Witness for C2: from a record of five failures stamped at time 0, an
attempt at time 1000 (inside the window) with a valid-looking code is
answered 429 and the map is untouched; at time `LOCKOUT_DURATION_MS + 1`
the limiter clears the record; and a successful login erases the record. -/
theorem c2_rate_limit_lockout_witness :
    (loginPost ⟨none, some "gamma"⟩ 1000 "1.2.3.4" (some "gamma")
        [("1.2.3.4", 5, 0)] =
      ({ status := 429, success := false,
         error := some "Too many failed attempts. Try again later." },
       [("1.2.3.4", 5, 0)])) ∧
    (isRateLimited (LOCKOUT_DURATION_MS + 1) "1.2.3.4" [("1.2.3.4", 5, 0)] =
      (false, [])) ∧
    (rlLookup (loginPost ⟨none, some "gamma"⟩ 7 "1.2.3.4" (some "gamma")
        [("1.2.3.4", 3, 0)]).2 "1.2.3.4" = none) := by
  refine ⟨?_, ?_, ?_⟩
  · exact c2_rate_limit_lockout.2.2.1 ⟨none, some "gamma"⟩ 1000 "1.2.3.4"
      (some "gamma") [("1.2.3.4", 5, 0)] 5 0 (by decide) (by decide) (by decide)
  · have h := (c2_rate_limit_lockout.2.2.2.1 (LOCKOUT_DURATION_MS + 1) "1.2.3.4"
      [("1.2.3.4", 5, 0)] 5 0 (by decide) (by decide)).1
    simpa [rlErase] using h
  · exact c2_rate_limit_lockout.2.2.2.2 ⟨none, some "gamma"⟩ 7 "1.2.3.4" "gamma"
      [("1.2.3.4", 3, 0)] (by decide) (by decide) (by decide)

/-! ## Theorems: C3 -/

/-- **C3, counterexample.** The claim says the recipients endpoints serve a
request whenever its bearer token is in the configured allow-list.  With
`ACCESS_CODES = "alpha,beta"` and `ADMIN_ACCESS_CODE = "gamma"`, the code
`"alpha"` is in the allow-list, yet both the GET and the PATCH handler answer
401 to `Authorization: Bearer alpha`: `verifyAuth` compares against the
single legacy `ADMIN_ACCESS_CODE` only. -/
theorem c3_counterexample :
    "alpha" ∈ getValidAccessCodes ⟨some "alpha,beta", some "gamma"⟩ ∧
    (getHandler ⟨some "alpha,beta", some "gamma"⟩ (some "Bearer alpha")).status = 401 ∧
    (patchHandler ⟨some "alpha,beta", some "gamma"⟩ (some "Bearer alpha")
      (some "R1") (some "Delivered") []).1.status = 401 := by
  decide

/-- **C3, amended.** The GET and PATCH handlers serve a request iff its
`Authorization` header, after removal of the first occurrence of the
substring `"Bearer "`, equals the configured legacy `ADMIN_ACCESS_CODE`
(assumed set and non-empty); any other request — in particular one whose
token is any other member of the `ACCESS_CODES` allow-list — receives a 401
Unauthorized response and, for PATCH, leaves the store untouched. -/
theorem c3_amended_admin_code_only (env : Env) (admin : String) (hdr : Option String)
    (ha : env.ADMIN_ACCESS_CODE = some admin) (hne : admin ≠ "") :
    (verifyAuth env hdr = true ↔
      ∃ h, hdr = some h ∧ h ≠ "" ∧
        String.mk (stripFirst "Bearer ".data h.data) = admin) ∧
    ((getHandler env hdr).status = 401 ↔ verifyAuth env hdr = false) ∧
    (∀ ri st sheet, verifyAuth env hdr = false →
      (patchHandler env hdr ri st sheet).1 =
        { status := 401, success := false, error := some "Unauthorized" } ∧
      (patchHandler env hdr ri st sheet).2 = sheet) := by
  refine ⟨?_, ?_, ?_⟩
  · cases hdr with
    | none => simp [verifyAuth, ha]
    | some h =>
      by_cases hh : h = ""
      · subst hh
        simp [verifyAuth, ha]
      · simp [verifyAuth, ha, hh, hne]
  · cases hv : verifyAuth env hdr <;> simp [getHandler, hv]
  · intro ri st sheet hv
    simp [patchHandler, hv]

/-- Witness for C3's amended claim, at the counterexample configuration:
the legacy code `"gamma"` is served, and the allow-list member `"alpha"`
gets 401 with the store unchanged. -/
theorem c3_amended_admin_code_only_witness :
    verifyAuth ⟨some "alpha,beta", some "gamma"⟩ (some "Bearer gamma") = true ∧
    (patchHandler ⟨some "alpha,beta", some "gamma"⟩ (some "Bearer alpha")
        (some "R1") (some "Delivered") [["ID"], ["R1"]]).1 =
      { status := 401, success := false, error := some "Unauthorized" } ∧
    (patchHandler ⟨some "alpha,beta", some "gamma"⟩ (some "Bearer alpha")
        (some "R1") (some "Delivered") [["ID"], ["R1"]]).2 = [["ID"], ["R1"]] := by
  refine ⟨?_, ?_, ?_⟩
  · exact (c3_amended_admin_code_only ⟨some "alpha,beta", some "gamma"⟩ "gamma"
      (some "Bearer gamma") rfl (by decide)).1.mpr ⟨"Bearer gamma", rfl, by decide, by decide⟩
  · exact ((c3_amended_admin_code_only ⟨some "alpha,beta", some "gamma"⟩ "gamma"
      (some "Bearer alpha") rfl (by decide)).2.2 (some "R1") (some "Delivered")
      [["ID"], ["R1"]] (by decide)).1
  · exact ((c3_amended_admin_code_only ⟨some "alpha,beta", some "gamma"⟩ "gamma"
      (some "Bearer alpha") rfl (by decide)).2.2 (some "R1") (some "Delivered")
      [["ID"], ["R1"]] (by decide)).2

/-! ## Theorems: C4 -/

/-- When no listed row's column A equals `id`, the search loop finds
nothing, whatever index it starts from. -/
theorem findIdAux_none (id : String) (rows : List (List String))
    (h : ∀ row ∈ rows, row.getD 0 "" ≠ id) :
    ∀ i, findIdAux id i rows = none := by
  induction rows with
  | nil => intro i; rfl
  | cons row rest ih =>
    intro i
    have hrow := h row (by simp)
    have hrest : ∀ r ∈ rest, r.getD 0 "" ≠ id := fun r hr => h r (by simp [hr])
    simp only [findIdAux]
    rw [if_neg hrow]
    exact ih hrest (i + 1)

/-- **C4.** A status update whose identifier matches no data row's column A
reports failure (`false`) and leaves every row of the store as it was; the
PATCH handler then answers with the generic failure response, again with the
store unchanged. -/
theorem c4_update_not_found (id st : String) (sheet : Sheet)
    (h : ∀ row ∈ sheet.drop 1, row.getD 0 "" ≠ id) :
    updateDeliveryStatus id st sheet = (false, sheet) ∧
    (∀ env hdr, verifyAuth env hdr = true → id ≠ "" → st ∈ validStatuses →
      (patchHandler env hdr (some id) (some st) sheet).1 =
        { status := 500, success := false, error := some "Failed to update status" } ∧
      (patchHandler env hdr (some id) (some st) sheet).2 = sheet) := by
  have hupd : updateDeliveryStatus id st sheet = (false, sheet) := by
    unfold updateDeliveryStatus
    by_cases hlen : sheet.length < 2
    · simp [hlen]
    · have hfind := findIdAux_none id (sheet.drop 1) h 1
      simp only [List.drop_one] at hfind
      simp [hlen, hfind]
  refine ⟨hupd, ?_⟩
  intro env hdr hauth hid hst
  have hstne : st ≠ "" := by
    rintro rfl
    simp [validStatuses] at hst
  simp [patchHandler, hauth, truthy, hid, hst, hstne, hupd]

/-- Witness for C4: a two-row sheet whose only data row is `R1`; updating
`R9` fails and the sheet survives byte for byte. -/
theorem c4_update_not_found_witness :
    updateDeliveryStatus "R9" "Delivered"
        [["ID", "Link"], ["R1", "", "", "", "", "", "", "", "", "Pending"]] =
      (false, [["ID", "Link"], ["R1", "", "", "", "", "", "", "", "", "Pending"]]) ∧
    (patchHandler ⟨none, some "gamma"⟩ (some "Bearer gamma") (some "R9")
        (some "Delivered")
        [["ID", "Link"], ["R1", "", "", "", "", "", "", "", "", "Pending"]]).1 =
      { status := 500, success := false, error := some "Failed to update status" } := by
  refine ⟨(c4_update_not_found "R9" "Delivered" _ (by decide)).1, ?_⟩
  exact ((c4_update_not_found "R9" "Delivered" _ (by decide)).2
    ⟨none, some "gamma"⟩ (some "Bearer gamma") (by decide) (by decide) (by decide)).1

/-! ## Theorems: C10 -/

/-- **C10.** An authenticated PATCH whose `status` field is present and
non-empty but not one of `Pending`, `On the way`, `Delivered` is answered
with the 400 invalid-status response, and the store comes back exactly as it
went in: the handler rejects before `updateDeliveryStatus` — and with it the
row lookup and the write — is ever reached. -/
theorem c10_invalid_status_rejected (env : Env) (hdr ri : Option String)
    (st : String) (sheet : Sheet)
    (hauth : verifyAuth env hdr = true)
    (hri : truthy ri = true) (hst : st ≠ "") (hinv : st ∉ validStatuses) :
    (patchHandler env hdr ri (some st) sheet).1 =
      { status := 400, success := false,
        error := some "Invalid status. Must be: Pending, On the way, or Delivered" } ∧
    (patchHandler env hdr ri (some st) sheet).2 = sheet := by
  cases ri with
  | none => simp [truthy] at hri
  | some r =>
    simp only [truthy, ne_eq, decide_not, Bool.not_eq_true', decide_eq_false_iff_not] at hri
    simp [patchHandler, hauth, truthy, hri, hst, hinv]

/-- Witness for C10: the status `"Shipped"` is rejected with 400 and the
sheet is unchanged. -/
theorem c10_invalid_status_rejected_witness :
    (patchHandler ⟨none, some "gamma"⟩ (some "Bearer gamma") (some "R1")
        (some "Shipped") [["ID"], ["R1"]]).1 =
      { status := 400, success := false,
        error := some "Invalid status. Must be: Pending, On the way, or Delivered" } ∧
    (patchHandler ⟨none, some "gamma"⟩ (some "Bearer gamma") (some "R1")
        (some "Shipped") [["ID"], ["R1"]]).2 = [["ID"], ["R1"]] :=
  c10_invalid_status_rejected ⟨none, some "gamma"⟩ (some "Bearer gamma")
    (some "R1") "Shipped" [["ID"], ["R1"]] (by decide) (by decide) (by decide)
    (by decide)

/-! ## Theorems: C8 -/

/-- **C8.** The claim — and the `Recipient` interface's own three-value
union type — demand that a stored status outside the enumeration come back
as `Pending`.  The source populates the field with the unchecked cast
`(row[9] as Recipient['status']) || 'Pending'`, so only a missing or empty
cell defaults to `Pending`; any other out-of-enumeration value (here
`"Shipped"`) is returned verbatim, escaping the declared type.  The
missing-cell half of the claim does hold (second and third conjuncts). -/
theorem c8_status_cast_unvalidated :
    ((getRecipients (fun _ => none)
        [["ID", "GoogleMapLink", "Latitude", "Longitude", "RecipientType",
          "Parcels", "Faculty", "Phone", "SecondaryPhone", "Status"],
         ["R1", "", "", "", "", "", "", "", "", "Shipped"]]).map Recipient.status =
      ["Shipped"]) ∧
    "Shipped" ∉ validStatuses ∧
    ((getRecipients (fun _ => none) [["ID"], ["R2"]]).map Recipient.status =
      ["Pending"]) ∧
    ((getRecipients (fun _ => none)
        [["ID"], ["R3", "", "", "", "", "", "", "", "", ""]]).map Recipient.status =
      ["Pending"]) := by
  decide

/-! ## Theorems: C9 -/

/-- The loop reads a recipient's identifier straight from column A. -/
theorem rowToRecipient_id (resolve : String → Option String) (row : List String) :
    (rowToRecipient resolve row).id = row.getD 0 "" := rfl

/-- Dropping an identifier-less row anywhere in the data leaves the built
recipient list unchanged. -/
theorem buildRecipients_skip (resolve : String → Option String)
    (row : List String) (hrow : row.getD 0 "" = "") :
    ∀ pre post, buildRecipients resolve (pre ++ row :: post) =
      buildRecipients resolve (pre ++ post) := by
  intro pre post
  induction pre with
  | nil =>
    simp only [List.nil_append, buildRecipients]
    rw [if_pos hrow]
  | cons p ps ih =>
    by_cases hp : p.getD 0 "" = "" <;>
      simp [buildRecipients, hp, ih]

/-- **C9.** Every recipient returned by the read operation carries a
non-empty identifier, and a sheet row whose column A is empty or missing
contributes nothing: removing it from the data leaves the result of the
read operation unchanged. -/
theorem c9_recipients_have_ids (resolve : String → Option String) :
    (∀ rows : Sheet, ∀ r ∈ getRecipients resolve rows, r.id ≠ "") ∧
    (∀ (hdr row : List String) (pre post : List (List String)),
      row.getD 0 "" = "" →
      getRecipients resolve (hdr :: (pre ++ row :: post)) =
        getRecipients resolve (hdr :: (pre ++ post))) := by
  constructor
  · intro rows
    match rows with
    | [] => intro r hr; simp [getRecipients] at hr
    | hdr :: body =>
      intro r hr
      simp only [getRecipients] at hr
      induction body with
      | nil => simp [buildRecipients] at hr
      | cons row rest ih =>
        by_cases hrow : row.getD 0 "" = ""
        · rw [buildRecipients, if_pos hrow] at hr
          exact ih hr
        · rw [buildRecipients, if_neg hrow] at hr
          rcases List.mem_cons.mp hr with heq | hmem
          · rw [heq, rowToRecipient_id]
            exact hrow
          · exact ih hmem
  · intro hdr row pre post hrow
    simp only [getRecipients]
    exact buildRecipients_skip resolve row hrow pre post

/-- Witness for C9: a data row with an empty column A vanishes from the
result, and the surviving recipient's identifier is `"R1" ≠ ""`. -/
theorem c9_recipients_have_ids_witness :
    (getRecipients (fun _ => none) [["ID"], ["", "ghost"], ["R1"]] =
      getRecipients (fun _ => none) [["ID"], ["R1"]]) ∧
    (rowToRecipient (fun _ => none) ["R1"]).id ≠ "" := by
  constructor
  · exact (c9_recipients_have_ids (fun _ => none)).2 ["ID"] ["", "ghost"] []
      [["R1"]] (by decide)
  · exact (c9_recipients_have_ids (fun _ => none)).1 [["ID"], ["R1"]]
      (rowToRecipient (fun _ => none) ["R1"]) (by decide)

/-! ## Theorems: C7 -/

/-- **C7.** For every short-link form — a URL in which `goo.gl` or
`maps.app.goo.gl` occurs, case-insensitively — the async parse first asks
the redirect follower for the final URL and then applies the same four
extraction patterns (`parseCoordinates`) to that resolved URL; when
resolution fails, the result is `null`.  `resolve` is the oracle standing
for `resolveShortLink`'s redirect-following fetch. -/
theorem c7_short_link_resolution (resolve : String → Option String)
    (link : String) (h : isShortLink link = true) :
    (∀ u, resolve link = some u →
      parseCoordinatesAsync resolve link = parseCoordinates u) ∧
    (resolve link = none → parseCoordinatesAsync resolve link = none) := by
  have hne : link ≠ "" := by
    rintro rfl
    simp [isShortLink, containsSeq] at h
  constructor
  · intro u hu
    simp [parseCoordinatesAsync, hne, h, hu]
  · intro hu
    simp [parseCoordinatesAsync, hne, h, hu]

/-- Witness for C7: a `goo.gl` link resolving to a place URL yields that
URL's coordinates, and the same link with a failing resolver yields
nothing. -/
theorem c7_short_link_resolution_witness :
    parseCoordinatesAsync (fun _ => some "https://www.google.com/maps/@1.5,2.5,17z")
      "https://maps.app.goo.gl/xYz" =
      parseCoordinates "https://www.google.com/maps/@1.5,2.5,17z" ∧
    parseCoordinatesAsync (fun _ => none) "https://maps.app.goo.gl/xYz" = none := by
  constructor
  · exact (c7_short_link_resolution
      (fun _ => some "https://www.google.com/maps/@1.5,2.5,17z")
      "https://maps.app.goo.gl/xYz" (by decide)).1 _ rfl
  · exact (c7_short_link_resolution (fun _ => none)
      "https://maps.app.goo.gl/xYz" (by decide)).2 rfl

/-! ## Theorems: C5 — token-matching lemmas -/

/-- `takeDigs` consumes exactly a leading all-digit block when what follows
does not start with a digit. -/
theorem takeDigs_append (d r : List Char) (hd : d.all Char.isDigit = true)
    (hr : ∀ c, r.head? = some c → c.isDigit = false) :
    takeDigs (d ++ r) = (d, r) := by
  induction d with
  | nil =>
    cases r with
    | nil => rfl
    | cons c cs => simp [takeDigs, hr c rfl]
  | cons c cs ih =>
    simp only [List.all_cons, Bool.and_eq_true] at hd
    simp [takeDigs, hd.1, ih hd.2]

/-- The number matcher consumes exactly a well-formed token body
(digits, optional dot, fraction digits) when the remainder cannot extend
it. -/
theorem matchNumCore_chars (dotted : Bool) (t : NumTok) (r : List Char)
    (hwf : t.wf) (hstop : tokStop t r) (hdot : dotted = true → t.dotted) :
    matchNumCore dotted (t.ipart ++ (t.tail ++ r)) =
      some (t.ipart ++ t.tail, r) := by
  obtain ⟨hne, hdig, hfr⟩ := hwf
  cases hf : t.fpart with
  | none =>
    have htl : t.tail = [] := by simp [NumTok.tail, hf]
    have hhead : ∀ c, r.head? = some c → c.isDigit = false := by
      intro c hc
      cases r with
      | nil => cases hc
      | cons c0 cs =>
        obtain ⟨h1, _⟩ := hstop
        cases hc
        exact h1
    have ht : takeDigs (t.ipart ++ r) = (t.ipart, r) :=
      takeDigs_append _ _ hdig hhead
    rw [htl]
    simp only [List.nil_append, List.append_nil]
    unfold matchNumCore
    rw [ht]
    simp only []
    rw [if_neg hne]
    cases r with
    | nil =>
      have hdf : dotted = false := by
        cases hdotted : dotted with
        | false => rfl
        | true =>
          exact absurd ((by simpa [NumTok.dotted, hf] using hdot hdotted) : False)
            id
      simp [hdf]
    | cons c0 cs =>
      obtain ⟨h1, h2⟩ := hstop
      have hc0 : c0 ≠ '.' := by
        rcases h2 with h2 | h2
        · rw [hf] at h2; cases h2
        · exact h2
      have hdf : dotted = false := by
        cases hdotted : dotted with
        | false => rfl
        | true =>
          exact absurd ((by simpa [NumTok.dotted, hf] using hdot hdotted) : False)
            id
      simp [hc0, hdf]
  | some f =>
    have htl : t.tail = '.' :: f := by simp [NumTok.tail, hf]
    have hfd : f.all Char.isDigit = true := by
      rw [hf] at hfr
      simpa using hfr
    have hhead : ∀ c, r.head? = some c → c.isDigit = false := by
      intro c hc
      cases r with
      | nil => cases hc
      | cons c0 cs =>
        obtain ⟨h1, _⟩ := hstop
        cases hc
        exact h1
    have htf : takeDigs (f ++ r) = (f, r) := takeDigs_append _ _ hfd hhead
    have ht : takeDigs (t.ipart ++ ('.' :: (f ++ r))) = (t.ipart, '.' :: (f ++ r)) := by
      apply takeDigs_append _ _ hdig
      intro c hc
      cases hc
      decide
    rw [htl]
    have hassoc : t.ipart ++ (('.' :: f) ++ r) = t.ipart ++ ('.' :: (f ++ r)) := by
      simp
    rw [hassoc]
    unfold matchNumCore
    rw [ht]
    simp only []
    rw [if_neg hne]
    rw [if_pos trivial]
    rw [htf]
    cases hdotted : dotted with
    | false => simp
    | true =>
      have hfne : f ≠ [] := by simpa [NumTok.dotted, hf] using hdot hdotted
      simp [List.isEmpty_iff, hfne]

/-- `matchNum` consumes exactly a well-formed token, sign included. -/
theorem matchNum_chars (dotted : Bool) (t : NumTok) (r : List Char)
    (hwf : t.wf) (hstop : tokStop t r) (hdot : dotted = true → t.dotted) :
    matchNum dotted (t.chars ++ r) = some (t.chars, r) := by
  have hcore := matchNumCore_chars dotted t r hwf hstop hdot
  obtain ⟨hne, hdig, _⟩ := hwf
  cases hn : t.neg with
  | true =>
    have hch : t.chars ++ r = '-' :: (t.ipart ++ (t.tail ++ r)) := by
      simp [NumTok.chars, hn]
    rw [hch]
    simp only [matchNum]
    rw [if_pos trivial, hcore]
    simp [NumTok.chars, hn]
  | false =>
    obtain ⟨i, is, hip⟩ : ∃ i is, t.ipart = i :: is := by
      cases hip : t.ipart with
      | nil => exact absurd hip hne
      | cons i is => exact ⟨i, is, rfl⟩
    have hi : i.isDigit = true := by
      rw [hip] at hdig
      simp only [List.all_cons, Bool.and_eq_true] at hdig
      exact hdig.1
    have hine : i ≠ '-' := by
      intro h
      rw [h] at hi
      exact absurd hi (by decide)
    have hch : t.chars ++ r = i :: (is ++ (t.tail ++ r)) := by
      simp [NumTok.chars, hn, hip]
    rw [hch]
    simp only [matchNum]
    rw [if_neg hine]
    have : i :: (is ++ (t.tail ++ r)) = t.ipart ++ (t.tail ++ r) := by
      simp [hip]
    rw [this, hcore]
    simp [NumTok.chars, hn, hip]

/-- `matchPair` captures exactly the two well-formed tokens around the
comma. -/
theorem matchPair_chars (dotted : Bool) (a b : NumTok) (post : List Char)
    (ha : a.wf) (hb : b.wf)
    (hda : dotted = true → a.dotted) (hdb : dotted = true → b.dotted)
    (hstop : tokStop b post) :
    matchPair dotted (a.chars ++ ',' :: (b.chars ++ post)) =
      some (a.chars, b.chars) := by
  have hsa : tokStop a (',' :: (b.chars ++ post)) := ⟨by decide, Or.inr (by decide)⟩
  have h1 := matchNum_chars dotted a (',' :: (b.chars ++ post)) ha hsa hda
  have h2 := matchNum_chars dotted b post hb hstop hdb
  unfold matchPair
  rw [h1]
  simp only []
  rw [if_pos trivial, h2]

/-- Every character of a well-formed token is a digit, a minus sign or a
dot. -/
theorem chars_class (t : NumTok) (hwf : t.wf) :
    ∀ c ∈ t.chars, c.isDigit = true ∨ c = '-' ∨ c = '.' := by
  obtain ⟨-, hdig, hfr⟩ := hwf
  intro c hc
  simp only [NumTok.chars, List.mem_append] at hc
  rcases hc with (hc | hc) | hc
  · cases hn : t.neg with
    | true =>
      rw [hn] at hc
      simp only [if_true, List.mem_singleton] at hc
      exact Or.inr (Or.inl hc)
    | false =>
      rw [hn] at hc
      simp at hc
  · exact Or.inl (by simpa using List.all_eq_true.mp hdig c hc)
  · cases hf : t.fpart with
    | none => rw [NumTok.tail, hf] at hc; cases hc
    | some f =>
      rw [NumTok.tail, hf] at hc
      rcases List.mem_cons.mp hc with rfl | hc
      · exact Or.inr (Or.inr rfl)
      · rw [hf] at hfr
        exact Or.inl (by simpa using List.all_eq_true.mp (by simpa using hfr) c hc)

/-- A character that is neither a digit, a minus nor a dot does not occur
in a well-formed token. -/
theorem not_mem_chars (t : NumTok) (hwf : t.wf) (c : Char)
    (h1 : c.isDigit = false) (h2 : c ≠ '-') (h3 : c ≠ '.') : c ∉ t.chars := by
  intro hm
  rcases chars_class t hwf c hm with h | h | h
  · rw [h1] at h; cases h
  · exact h2 h
  · exact h3 h

theorem notMemCons (c d : Char) (l : List Char) (h1 : c ≠ d) (h2 : c ∉ l) :
    c ∉ d :: l := by
  simp [List.mem_cons, h1, h2]

theorem notMemAppend (c : Char) (x y : List Char) (hx : c ∉ x) (hy : c ∉ y) :
    c ∉ x ++ y := by
  simp [List.mem_append, hx, hy]

/-- `parseFloat` reads off a well-formed token's decimal value. -/
theorem ratOfTok_chars (t : NumTok) (hwf : t.wf) : ratOfTok t.chars = t.val := by
  obtain ⟨hne, hdig, hfr⟩ := hwf
  have hpos : ratOfPos (t.ipart ++ t.tail) =
      (natOfDigs t.ipart : Rat) +
        (match t.fpart with
         | some f => (natOfDigs f : Rat) / ((10 : Rat) ^ f.length)
         | none => 0) := by
    cases hf : t.fpart with
    | none =>
      have ht : takeDigs (t.ipart ++ []) = (t.ipart, []) :=
        takeDigs_append _ _ hdig (by intro c hc; cases hc)
      simp only [NumTok.tail, hf]
      unfold ratOfPos
      rw [ht]
      simp
    | some f =>
      have hfd : f.all Char.isDigit = true := by
        rw [hf] at hfr
        simpa using hfr
      have ht : takeDigs (t.ipart ++ '.' :: f) = (t.ipart, '.' :: f) :=
        takeDigs_append _ _ hdig (by intro c hc; cases hc; decide)
      have htf : takeDigs (f ++ []) = (f, []) :=
        takeDigs_append _ _ hfd (by intro c hc; cases hc)
      simp only [List.append_nil] at htf
      simp only [NumTok.tail, hf]
      unfold ratOfPos
      rw [ht]
      simp only []
      rw [if_pos trivial, htf]
  cases hn : t.neg with
  | true =>
    have hch : t.chars = '-' :: (t.ipart ++ t.tail) := by
      simp [NumTok.chars, hn]
    rw [hch]
    simp only [ratOfTok]
    rw [if_pos trivial, hpos]
    simp [NumTok.val, hn]
  | false =>
    obtain ⟨i, is, hip⟩ : ∃ i is, t.ipart = i :: is := by
      cases hip : t.ipart with
      | nil => exact absurd hip hne
      | cons i is => exact ⟨i, is, rfl⟩
    have hi : i.isDigit = true := by
      rw [hip] at hdig
      simp only [List.all_cons, Bool.and_eq_true] at hdig
      exact hdig.1
    have hine : i ≠ '-' := by
      intro h
      rw [h] at hi
      exact absurd hi (by decide)
    have hch : t.chars = i :: (is ++ t.tail) := by
      simp [NumTok.chars, hn, hip]
    rw [hch]
    simp only [ratOfTok]
    rw [if_neg hine]
    have : i :: (is ++ t.tail) = t.ipart ++ t.tail := by simp [hip]
    rw [this, hpos]
    simp [NumTok.val, hn]

/-! ## Theorems: C5 — scanner lemmas -/

/-- The `@` scan skips a prefix free of `@`. -/
theorem scanAt_append (p l : List Char) (hp : '@' ∉ p) :
    scanAt (p ++ l) = scanAt l := by
  induction p with
  | nil => rfl
  | cons c cs ih =>
    have hc : c ≠ '@' := fun h => hp (h ▸ List.mem_cons_self c cs)
    simp only [List.cons_append, scanAt]
    rw [if_neg hc]
    exact ih (fun h => hp (List.mem_cons_of_mem c h))

/-- A string without `@` has no `@`-format match. -/
theorem scanAt_none (l : List Char) (h : '@' ∉ l) : scanAt l = none := by
  simpa using scanAt_append l [] h

/-- The query scan skips a prefix free of `?` and `&`. -/
theorem scanQuery_append (key p l : List Char) (hp : noMark p) :
    scanQuery key (p ++ l) = scanQuery key l := by
  induction p with
  | nil => rfl
  | cons c cs ih =>
    have hc := hp c (List.mem_cons_self c cs)
    have hcm : ¬(c = '?' ∨ c = '&') := by
      rintro (h | h)
      · exact hc.1 h
      · exact hc.2 h
    simp only [List.cons_append, scanQuery]
    rw [if_neg hcm]
    exact ih (fun d hd => hp d (List.mem_cons_of_mem c hd))

/-- A string without query markers has no query-format match. -/
theorem scanQuery_none (key l : List Char) (h : noMark l) :
    scanQuery key l = none := by
  simpa using scanQuery_append key l [] h

/-- A marker whose key does not follow is skipped by the query scan. -/
theorem scanQuery_cons_nokey (key : List Char) (c : Char) (cs : List Char)
    (hk : stripKey key cs = none) :
    scanQuery key (c :: cs) = scanQuery key cs := by
  by_cases hc : c = '?' ∨ c = '&' <;> simp [scanQuery, hc, hk]

/-- A character that cannot start a number defeats the dotted pair
matcher immediately. -/
theorem matchPair_true_head (c : Char) (cs : List Char)
    (h1 : c.isDigit = false) (h2 : c ≠ '-') :
    matchPair true (c :: cs) = none := by
  have hnum : matchNum true (c :: cs) = none := by
    simp only [matchNum]
    rw [if_neg h2]
    unfold matchNumCore
    simp [takeDigs, h1]
  simp [matchPair, hnum]

/-- A non-slash character is skipped by the plain scan. -/
theorem scanPlain_cons_ne (c : Char) (l : List Char) (hc : c ≠ '/') :
    scanPlain (c :: l) = scanPlain l := by
  rw [scanPlain.eq_def]
  simp only []
  rw [if_neg hc]

/-- A slash after which the dotted pair does not match is skipped by the
plain scan. -/
theorem scanPlain_cons_slash (l : List Char) (h : matchPair true l = none) :
    scanPlain ('/' :: l) = scanPlain l := by
  rw [scanPlain.eq_def]
  simp only []
  rw [if_pos trivial, h]

/-- The plain scan skips a `plainPre` prefix. -/
theorem scanPlain_append (p l : List Char) (hp : plainPre p = true) :
    scanPlain (p ++ l) = scanPlain l := by
  induction p with
  | nil => rfl
  | cons c cs ih =>
    by_cases hc : c = '/'
    · subst hc
      cases cs with
      | nil => simp [plainPre] at hp
      | cons d ds =>
        rw [plainPre.eq_def] at hp
        simp only [] at hp
        rw [if_pos trivial] at hp
        simp only [Bool.and_eq_true, Bool.not_eq_true', Bool.or_eq_false_iff] at hp
        obtain ⟨⟨hd1, hd2⟩, hp2⟩ := hp
        have hd2' : d ≠ '-' := by simpa using hd2
        have hstep : scanPlain ('/' :: (d :: (ds ++ l))) = scanPlain (d :: (ds ++ l)) :=
          scanPlain_cons_slash _ (matchPair_true_head d (ds ++ l) hd1 hd2')
        calc scanPlain (('/' :: d :: ds) ++ l)
            = scanPlain ('/' :: (d :: (ds ++ l))) := by simp
          _ = scanPlain (d :: (ds ++ l)) := hstep
          _ = scanPlain l := by
              rw [← List.cons_append]
              exact ih hp2
    · have hp' : plainPre cs = true := by
        rw [plainPre.eq_def] at hp
        simp only [] at hp
        rwa [if_neg hc] at hp
      calc scanPlain ((c :: cs) ++ l) = scanPlain (c :: (cs ++ l)) := by simp
        _ = scanPlain (cs ++ l) := scanPlain_cons_ne c _ hc
        _ = scanPlain l := ih hp'

/-- A well-formed token never contains a query marker. -/
theorem noMark_chars (t : NumTok) (hwf : t.wf) : noMark t.chars := by
  intro c hc
  rcases chars_class t hwf c hc with h | h | h
  · constructor <;> rintro rfl <;> exact absurd h (by decide)
  · subst h; exact ⟨by decide, by decide⟩
  · subst h; exact ⟨by decide, by decide⟩

theorem noMark_cons (c : Char) (l : List Char) (h1 : c ≠ '?') (h2 : c ≠ '&')
    (hl : noMark l) : noMark (c :: l) := by
  intro d hd
  rcases List.mem_cons.mp hd with rfl | hd
  · exact ⟨h1, h2⟩
  · exact hl d hd

theorem noMark_append (x y : List Char) (hx : noMark x) (hy : noMark y) :
    noMark (x ++ y) := by
  intro d hd
  rcases List.mem_append.mp hd with hd | hd
  · exact hx d hd
  · exact hy d hd

/-! ## Theorems: C5 — one lemma per link format -/

/-- A link that is a clean prefix, then `@LAT,LNG`, then anything that does
not extend the numbers, parses to the two token values. -/
theorem parseAt_format (a b : NumTok) (pre post : List Char)
    (ha : a.wf) (hb : b.wf) (hstop : tokStop b post) (hpre : '@' ∉ pre) :
    parseCoordsList (pre ++ '@' :: (a.chars ++ ',' :: (b.chars ++ post))) =
      some (a.val, b.val) := by
  have hmp : matchPair false (a.chars ++ ',' :: (b.chars ++ post)) =
      some (a.chars, b.chars) :=
    matchPair_chars false a b post ha hb (fun h => Bool.noConfusion h)
      (fun h => Bool.noConfusion h) hstop
  have hscan : scanAt (pre ++ '@' :: (a.chars ++ ',' :: (b.chars ++ post))) =
      some (a.chars, b.chars) := by
    rw [scanAt_append _ _ hpre]
    rw [scanAt.eq_def]
    simp only []
    rw [if_pos trivial, hmp]
  unfold parseCoordsList
  rw [if_neg (by simp), hscan]
  simp only []
  rw [ratOfTok_chars a ha, ratOfTok_chars b hb]

/-- A link that is a marker-free prefix, then `?q=` or `&q=`, then
`LAT,LNG`, with no `@` anywhere, parses to the two token values. -/
theorem parseQ_format (a b : NumTok) (m : Char) (pre post : List Char)
    (ha : a.wf) (hb : b.wf) (hstop : tokStop b post)
    (hm : m = '?' ∨ m = '&') (hpre : '@' ∉ pre) (hpost : '@' ∉ post)
    (hmark : noMark pre) :
    parseCoordsList (pre ++ m :: 'q' :: '=' :: (a.chars ++ ',' :: (b.chars ++ post))) =
      some (a.val, b.val) := by
  have hmp : matchPair false (a.chars ++ ',' :: (b.chars ++ post)) =
      some (a.chars, b.chars) :=
    matchPair_chars false a b post ha hb (fun h => Bool.noConfusion h)
      (fun h => Bool.noConfusion h) hstop
  have hA := not_mem_chars a ha '@' (by decide) (by decide) (by decide)
  have hB := not_mem_chars b hb '@' (by decide) (by decide) (by decide)
  have hm' : '@' ≠ m := by rcases hm with rfl | rfl <;> decide
  have hat : scanAt (pre ++ m :: 'q' :: '=' :: (a.chars ++ ',' :: (b.chars ++ post))) =
      none := by
    apply scanAt_none
    exact notMemAppend _ _ _ hpre (notMemCons _ _ _ hm' (notMemCons _ _ _ (by decide)
      (notMemCons _ _ _ (by decide) (notMemAppend _ _ _ hA (notMemCons _ _ _ (by decide)
        (notMemAppend _ _ _ hB hpost))))))
  have hkey : stripKey ['q', '='] ('q' :: '=' :: (a.chars ++ ',' :: (b.chars ++ post))) =
      some (a.chars ++ ',' :: (b.chars ++ post)) := by
    simp [stripKey]
  have hq : scanQuery ['q', '=']
      (pre ++ m :: 'q' :: '=' :: (a.chars ++ ',' :: (b.chars ++ post))) =
      some (a.chars, b.chars) := by
    rw [scanQuery_append _ _ _ hmark]
    rw [scanQuery.eq_def]
    simp only []
    rw [if_pos hm, hkey]
    simp only []
    rw [hmp]
  unfold parseCoordsList
  rw [if_neg (by simp), hat, hq]
  simp only []
  rw [ratOfTok_chars a ha, ratOfTok_chars b hb]

/-- A link that is a marker-free prefix, then `?ll=` or `&ll=`, then
`LAT,LNG`, with no `@` and no further marker that could form a `q=` match,
parses to the two token values. -/
theorem parseLl_format (a b : NumTok) (m : Char) (pre post : List Char)
    (ha : a.wf) (hb : b.wf) (hstop : tokStop b post)
    (hm : m = '?' ∨ m = '&') (hpre : '@' ∉ pre) (hpost : '@' ∉ post)
    (hmark : noMark pre) (hmark2 : noMark post) :
    parseCoordsList
        (pre ++ m :: 'l' :: 'l' :: '=' :: (a.chars ++ ',' :: (b.chars ++ post))) =
      some (a.val, b.val) := by
  have hmp : matchPair false (a.chars ++ ',' :: (b.chars ++ post)) =
      some (a.chars, b.chars) :=
    matchPair_chars false a b post ha hb (fun h => Bool.noConfusion h)
      (fun h => Bool.noConfusion h) hstop
  have hA := not_mem_chars a ha '@' (by decide) (by decide) (by decide)
  have hB := not_mem_chars b hb '@' (by decide) (by decide) (by decide)
  have hm' : '@' ≠ m := by rcases hm with rfl | rfl <;> decide
  have hat : scanAt
      (pre ++ m :: 'l' :: 'l' :: '=' :: (a.chars ++ ',' :: (b.chars ++ post))) =
      none := by
    apply scanAt_none
    exact notMemAppend _ _ _ hpre (notMemCons _ _ _ hm' (notMemCons _ _ _ (by decide)
      (notMemCons _ _ _ (by decide) (notMemCons _ _ _ (by decide)
        (notMemAppend _ _ _ hA (notMemCons _ _ _ (by decide)
          (notMemAppend _ _ _ hB hpost)))))))
  have hrest : noMark ('l' :: 'l' :: '=' :: (a.chars ++ ',' :: (b.chars ++ post))) :=
    noMark_cons _ _ (by decide) (by decide) (noMark_cons _ _ (by decide) (by decide)
      (noMark_cons _ _ (by decide) (by decide) (noMark_append _ _ (noMark_chars a ha)
        (noMark_cons _ _ (by decide) (by decide)
          (noMark_append _ _ (noMark_chars b hb) hmark2)))))
  have hkq : stripKey ['q', '=']
      ('l' :: 'l' :: '=' :: (a.chars ++ ',' :: (b.chars ++ post))) = none := by
    simp [stripKey]
  have hnoq : scanQuery ['q', '=']
      (pre ++ m :: 'l' :: 'l' :: '=' :: (a.chars ++ ',' :: (b.chars ++ post))) =
      none := by
    rw [scanQuery_append _ _ _ hmark]
    rw [scanQuery_cons_nokey _ _ _ hkq]
    exact scanQuery_none _ _ hrest
  have hkey : stripKey ['l', 'l', '=']
      ('l' :: 'l' :: '=' :: (a.chars ++ ',' :: (b.chars ++ post))) =
      some (a.chars ++ ',' :: (b.chars ++ post)) := by
    simp [stripKey]
  have hll : scanQuery ['l', 'l', '=']
      (pre ++ m :: 'l' :: 'l' :: '=' :: (a.chars ++ ',' :: (b.chars ++ post))) =
      some (a.chars, b.chars) := by
    rw [scanQuery_append _ _ _ hmark]
    rw [scanQuery.eq_def]
    simp only []
    rw [if_pos hm, hkey]
    simp only []
    rw [hmp]
  unfold parseCoordsList
  rw [if_neg (by simp), hat, hnoq, hll]
  simp only []
  rw [ratOfTok_chars a ha, ratOfTok_chars b hb]

/-- A link that is a clean prefix, then `/LAT,LNG` with dotted numbers,
parses to the two token values. -/
theorem parsePlain_format (a b : NumTok) (pre post : List Char)
    (ha : a.wf) (hb : b.wf) (hda : a.dotted) (hdb : b.dotted)
    (hstop : tokStop b post) (hpre : '@' ∉ pre) (hpost : '@' ∉ post)
    (hmark : noMark pre) (hmark2 : noMark post) (hplain : plainPre pre = true) :
    parseCoordsList (pre ++ '/' :: (a.chars ++ ',' :: (b.chars ++ post))) =
      some (a.val, b.val) := by
  have hmp : matchPair true (a.chars ++ ',' :: (b.chars ++ post)) =
      some (a.chars, b.chars) :=
    matchPair_chars true a b post ha hb (fun _ => hda) (fun _ => hdb) hstop
  have hA := not_mem_chars a ha '@' (by decide) (by decide) (by decide)
  have hB := not_mem_chars b hb '@' (by decide) (by decide) (by decide)
  have hat : scanAt (pre ++ '/' :: (a.chars ++ ',' :: (b.chars ++ post))) = none := by
    apply scanAt_none
    exact notMemAppend _ _ _ hpre (notMemCons _ _ _ (by decide)
      (notMemAppend _ _ _ hA (notMemCons _ _ _ (by decide)
        (notMemAppend _ _ _ hB hpost))))
  have hall : noMark (pre ++ '/' :: (a.chars ++ ',' :: (b.chars ++ post))) :=
    noMark_append _ _ hmark (noMark_cons _ _ (by decide) (by decide)
      (noMark_append _ _ (noMark_chars a ha) (noMark_cons _ _ (by decide) (by decide)
        (noMark_append _ _ (noMark_chars b hb) hmark2))))
  have hpl : scanPlain (pre ++ '/' :: (a.chars ++ ',' :: (b.chars ++ post))) =
      some (a.chars, b.chars) := by
    rw [scanPlain_append _ _ hplain]
    rw [scanPlain.eq_def]
    simp only []
    rw [if_pos trivial, hmp]
  unfold parseCoordsList
  rw [if_neg (by simp), hat, scanQuery_none _ _ hall, scanQuery_none _ _ hall, hpl]
  simp only []
  rw [ratOfTok_chars a ha, ratOfTok_chars b hb]

/-- **C5.** `parseCoordinates` extracts the encoded latitude/longitude pair
from each of the four supported link formats, and when several patterns
occur in one link the result follows the fixed priority `@`, `q=`, `ll=`,
plain.  Formats are described structurally: `NumTok.chars` is the number as
written in the link, `NumTok.val` its decimal value, `tokStop` says the
following text cannot extend the number, `noMark`/`plainPre` say the
surrounding text contains no competing pattern start.  Conjuncts: (1) the
`@LAT,LNG` path format; (2) the `q=LAT,LNG` query format; (3) the
`ll=LAT,LNG` query format; (4) the plain `/LAT,LNG` path format, whose
numbers must carry a decimal point; (5) `@` wins over a later `q=`;
(6) `q=` wins over a later `ll=`; (7) `ll=` wins over a later plain pair. -/
theorem c5_extraction_formats_priority :
    (∀ (a b : NumTok) (pre post : List Char), a.wf → b.wf →
      tokStop b post → '@' ∉ pre →
      parseCoordinates (String.mk (pre ++ '@' :: (a.chars ++ ',' :: (b.chars ++ post)))) =
        some (a.val, b.val)) ∧
    (∀ (a b : NumTok) (m : Char) (pre post : List Char), a.wf → b.wf →
      tokStop b post → (m = '?' ∨ m = '&') → '@' ∉ pre → '@' ∉ post → noMark pre →
      parseCoordinates
          (String.mk (pre ++ m :: 'q' :: '=' :: (a.chars ++ ',' :: (b.chars ++ post)))) =
        some (a.val, b.val)) ∧
    (∀ (a b : NumTok) (m : Char) (pre post : List Char), a.wf → b.wf →
      tokStop b post → (m = '?' ∨ m = '&') → '@' ∉ pre → '@' ∉ post →
      noMark pre → noMark post →
      parseCoordinates
          (String.mk
            (pre ++ m :: 'l' :: 'l' :: '=' :: (a.chars ++ ',' :: (b.chars ++ post)))) =
        some (a.val, b.val)) ∧
    (∀ (a b : NumTok) (pre post : List Char), a.wf → b.wf →
      a.dotted → b.dotted → tokStop b post → '@' ∉ pre → '@' ∉ post →
      noMark pre → noMark post → plainPre pre = true →
      parseCoordinates
          (String.mk (pre ++ '/' :: (a.chars ++ ',' :: (b.chars ++ post)))) =
        some (a.val, b.val)) ∧
    (∀ (a b c d : NumTok) (pre : List Char), a.wf → b.wf → c.wf → d.wf →
      '@' ∉ pre →
      parseCoordinates
          (String.mk (pre ++ '@' :: (a.chars ++ ',' ::
            (b.chars ++ '?' :: 'q' :: '=' :: (c.chars ++ ',' :: d.chars))))) =
        some (a.val, b.val)) ∧
    (∀ (a b c d : NumTok) (m : Char) (pre : List Char), a.wf → b.wf → c.wf → d.wf →
      (m = '?' ∨ m = '&') → '@' ∉ pre → noMark pre →
      parseCoordinates
          (String.mk (pre ++ m :: 'q' :: '=' :: (a.chars ++ ',' ::
            (b.chars ++ '&' :: 'l' :: 'l' :: '=' :: (c.chars ++ ',' :: d.chars))))) =
        some (a.val, b.val)) ∧
    (∀ (a b c d : NumTok) (m : Char) (pre : List Char), a.wf → b.wf → c.wf → d.wf →
      c.dotted → d.dotted → (m = '?' ∨ m = '&') → '@' ∉ pre → noMark pre →
      parseCoordinates
          (String.mk (pre ++ m :: 'l' :: 'l' :: '=' :: (a.chars ++ ',' ::
            (b.chars ++ '/' :: (c.chars ++ ',' :: d.chars))))) =
        some (a.val, b.val)) := by
  refine ⟨?_, ?_, ?_, ?_, ?_, ?_, ?_⟩
  · intro a b pre post ha hb hstop hpre
    exact parseAt_format a b pre post ha hb hstop hpre
  · intro a b m pre post ha hb hstop hm hpre hpost hmark
    exact parseQ_format a b m pre post ha hb hstop hm hpre hpost hmark
  · intro a b m pre post ha hb hstop hm hpre hpost hmark hmark2
    exact parseLl_format a b m pre post ha hb hstop hm hpre hpost hmark hmark2
  · intro a b pre post ha hb hda hdb hstop hpre hpost hmark hmark2 hplain
    exact parsePlain_format a b pre post ha hb hda hdb hstop hpre hpost hmark
      hmark2 hplain
  · intro a b c d pre ha hb hc hd hpre
    exact parseAt_format a b pre _ ha hb ⟨by decide, Or.inr (by decide)⟩ hpre
  · intro a b c d m pre ha hb hc hd hm hpre hmark
    have hpost : '@' ∉ ('&' :: 'l' :: 'l' :: '=' :: (c.chars ++ ',' :: d.chars)) :=
      notMemCons _ _ _ (by decide) (notMemCons _ _ _ (by decide)
        (notMemCons _ _ _ (by decide) (notMemCons _ _ _ (by decide)
          (notMemAppend _ _ _
            (not_mem_chars c hc '@' (by decide) (by decide) (by decide))
            (notMemCons _ _ _ (by decide)
              (not_mem_chars d hd '@' (by decide) (by decide) (by decide)))))))
    exact parseQ_format a b m pre _ ha hb ⟨by decide, Or.inr (by decide)⟩ hm hpre
      hpost hmark
  · intro a b c d m pre ha hb hc hd hdc hdd hm hpre hmark
    have hpost : '@' ∉ ('/' :: (c.chars ++ ',' :: d.chars)) :=
      notMemCons _ _ _ (by decide) (notMemAppend _ _ _
        (not_mem_chars c hc '@' (by decide) (by decide) (by decide))
        (notMemCons _ _ _ (by decide)
          (not_mem_chars d hd '@' (by decide) (by decide) (by decide))))
    have hmark2 : noMark ('/' :: (c.chars ++ ',' :: d.chars)) :=
      noMark_cons _ _ (by decide) (by decide) (noMark_append _ _ (noMark_chars c hc)
        (noMark_cons _ _ (by decide) (by decide) (noMark_chars d hd)))
    exact parseLl_format a b m pre _ ha hb ⟨by decide, Or.inr (by decide)⟩ hm hpre
      hpost hmark hmark2

/-- Witness for C5: concrete links in each of the four formats, built from
the tokens `6.9271` and `79.8612`, parse to those values, and a link
containing both an `@` pair and a `q=` pair yields the `@` pair. -/
theorem c5_extraction_formats_priority_witness :
    parseCoordinates (String.mk
        ("https://www.google.com/maps/place/X".data ++ '@' ::
          ((⟨false, ['6'], some ['9', '2', '7', '1']⟩ : NumTok).chars ++ ',' ::
            ((⟨false, ['7', '9'], some ['8', '6', '1', '2']⟩ : NumTok).chars ++
              ",17z".data)))) =
      some ((⟨false, ['6'], some ['9', '2', '7', '1']⟩ : NumTok).val,
        (⟨false, ['7', '9'], some ['8', '6', '1', '2']⟩ : NumTok).val) ∧
    parseCoordinates (String.mk
        ("https://maps.google.com/".data ++ '?' :: 'q' :: '=' ::
          ((⟨true, ['6'], none⟩ : NumTok).chars ++ ',' ::
            ((⟨false, ['7', '9'], none⟩ : NumTok).chars ++ [])))) =
      some ((⟨true, ['6'], none⟩ : NumTok).val, (⟨false, ['7', '9'], none⟩ : NumTok).val) ∧
    parseCoordinates (String.mk
        ("https://www.google.com/maps/place/X".data ++ '@' ::
          ((⟨false, ['1'], some ['5']⟩ : NumTok).chars ++ ',' ::
            ((⟨false, ['2'], some ['5']⟩ : NumTok).chars ++ '?' :: 'q' :: '=' ::
              ((⟨false, ['3'], none⟩ : NumTok).chars ++ ',' ::
                (⟨false, ['4'], none⟩ : NumTok).chars))))) =
      some ((⟨false, ['1'], some ['5']⟩ : NumTok).val,
        (⟨false, ['2'], some ['5']⟩ : NumTok).val) := by
  refine ⟨?_, ?_, ?_⟩
  · exact c5_extraction_formats_priority.1 ⟨false, ['6'], some ['9', '2', '7', '1']⟩
      ⟨false, ['7', '9'], some ['8', '6', '1', '2']⟩ "https://www.google.com/maps/place/X".data
      ",17z".data (by decide) (by decide) (by decide) (by decide)
  · exact c5_extraction_formats_priority.2.1 ⟨true, ['6'], none⟩ ⟨false, ['7', '9'], none⟩
      '?' "https://maps.google.com/".data [] (by decide) (by decide) (by decide)
      (Or.inl rfl) (by decide) (by decide) (by decide)
  · exact c5_extraction_formats_priority.2.2.2.2.1 ⟨false, ['1'], some ['5']⟩
      ⟨false, ['2'], some ['5']⟩ ⟨false, ['3'], none⟩ ⟨false, ['4'], none⟩
      "https://www.google.com/maps/place/X".data (by decide) (by decide) (by decide)
      (by decide) (by decide)

/-! ## Theorems: C6 -/

theorem matchNumCore_head_not_digit (dotted : Bool) (c : Char) (cs : List Char)
    (h : c.isDigit = false) : matchNumCore dotted (c :: cs) = none := by
  unfold matchNumCore
  simp [takeDigs, h]

/-- A list without digits defeats the number matcher. -/
theorem matchNum_no_digit (dotted : Bool) (l : List Char)
    (h : ∀ c ∈ l, c.isDigit = false) : matchNum dotted l = none := by
  cases l with
  | nil => rfl
  | cons c rest =>
    by_cases hc : c = '-'
    · have hrest : matchNumCore dotted rest = none := by
        cases rest with
        | nil => rfl
        | cons c0 cs0 =>
          exact matchNumCore_head_not_digit dotted c0 cs0
            (h c0 (List.mem_cons_of_mem c (List.mem_cons_self c0 cs0)))
      simp [matchNum, hc, hrest]
    · have := matchNumCore_head_not_digit dotted c rest (h c (List.mem_cons_self c rest))
      simp [matchNum, hc, this]

/-- A list without digits defeats the pair matcher. -/
theorem matchPair_no_digit (dotted : Bool) (l : List Char)
    (h : ∀ c ∈ l, c.isDigit = false) : matchPair dotted l = none := by
  simp [matchPair, matchNum_no_digit dotted l h]

/-- Whatever a successful key strip returns came from the scanned list. -/
theorem stripKey_sub (key : List Char) :
    ∀ (cs r : List Char), stripKey key cs = some r → ∀ c ∈ r, c ∈ cs := by
  induction key with
  | nil =>
    intro cs r h c hc
    cases h
    exact hc
  | cons k ks ih =>
    intro cs r h c hc
    cases cs with
    | nil => cases h
    | cons c0 cs0 =>
      rw [stripKey] at h
      by_cases hk : c0 = k
      · rw [if_pos hk] at h
        exact List.mem_cons_of_mem c0 (ih cs0 r h c hc)
      · rw [if_neg hk] at h
        cases h

/-- A string without digits has no `@`-format match. -/
theorem scanAt_no_digit (l : List Char) (h : ∀ c ∈ l, c.isDigit = false) :
    scanAt l = none := by
  induction l with
  | nil => rfl
  | cons c cs ih =>
    have hcs : ∀ d ∈ cs, d.isDigit = false :=
      fun d hd => h d (List.mem_cons_of_mem c hd)
    by_cases hc : c = '@' <;>
      simp [scanAt, hc, matchPair_no_digit false cs hcs, ih hcs]

/-- A string without digits has no query-format match. -/
theorem scanQuery_no_digit (key l : List Char) (h : ∀ c ∈ l, c.isDigit = false) :
    scanQuery key l = none := by
  induction l with
  | nil => rfl
  | cons c cs ih =>
    have hcs : ∀ d ∈ cs, d.isDigit = false :=
      fun d hd => h d (List.mem_cons_of_mem c hd)
    by_cases hc : c = '?' ∨ c = '&'
    · cases hk : stripKey key cs with
      | none => simp [scanQuery, hc, hk, ih hcs]
      | some r =>
        have hr : ∀ d ∈ r, d.isDigit = false :=
          fun d hd => hcs d (stripKey_sub key cs r hk d hd)
        simp [scanQuery, hc, hk, matchPair_no_digit false r hr, ih hcs]
    · simp [scanQuery, hc, ih hcs]

/-- A string without digits has no plain-format match. -/
theorem scanPlain_no_digit (l : List Char) (h : ∀ c ∈ l, c.isDigit = false) :
    scanPlain l = none := by
  induction l with
  | nil => rfl
  | cons c cs ih =>
    have hcs : ∀ d ∈ cs, d.isDigit = false :=
      fun d hd => h d (List.mem_cons_of_mem c hd)
    by_cases hc : c = '/' <;>
      simp [scanPlain, hc, matchPair_no_digit true cs hcs, ih hcs]

/-- **C6.** `parseCoordinates` yields no coordinates on the empty string;
on any string in which none of the four scans finds its pattern (the
literal reading of "matches none of the four supported URL patterns"); and,
as a checkable sufficient condition, on any string containing no decimal
digit at all. -/
theorem c6_unmatched_yields_null :
    parseCoordinates "" = none ∧
    (∀ s : String, scanAt s.data = none → scanQuery ['q', '='] s.data = none →
      scanQuery ['l', 'l', '='] s.data = none → scanPlain s.data = none →
      parseCoordinates s = none) ∧
    (∀ s : String, (∀ c ∈ s.data, c.isDigit = false) → parseCoordinates s = none) := by
  refine ⟨rfl, ?_, ?_⟩
  · intro s h1 h2 h3 h4
    show parseCoordsList s.data = none
    unfold parseCoordsList
    by_cases hnil : s.data = []
    · rw [if_pos hnil]
    · rw [if_neg hnil, h1, h2, h3, h4]
  · intro s h
    show parseCoordsList s.data = none
    unfold parseCoordsList
    by_cases hnil : s.data = []
    · rw [if_pos hnil]
    · rw [if_neg hnil, scanAt_no_digit _ h, scanQuery_no_digit _ _ h,
        scanQuery_no_digit _ _ h, scanPlain_no_digit _ h]

/-- Witness for C6: a link on which all four scans fail, and a digit-free
string, both yield no coordinates. -/
theorem c6_unmatched_yields_null_witness :
    parseCoordinates "tel:0771234567" = none ∧
    parseCoordinates "https://maps.google.com/place" = none := by
  constructor
  · exact c6_unmatched_yields_null.2.1 "tel:0771234567" (by decide) (by decide)
      (by decide) (by decide)
  · exact c6_unmatched_yields_null.2.2 "https://maps.google.com/place" (by decide)

end DeliveryTracker
